import Mathlib

/-!
Verification of the rule-compilation core of the `crashappsec/zero` converters
(`rag-security-to-semgrep.py` and `rag-to-semgrep.py`), shallowly embedded.

Python strings are modelled as `String` / `List Char`; the specific regular
expressions used by the scripts are embedded as dedicated scanning functions
whose semantics were derived from the Python `re` leftmost-match/backtracking
behaviour of each concrete pattern (documented at each definition).
All recursion is structural or fuel-based so every definition evaluates by
kernel reduction on concrete inputs.
-/

/-- Python `str` whitespace for `.strip()` / `\s`: space, tab, LF, CR, VT, FF. -/
def pyWS (c : Char) : Bool :=
  c = ' ' || c = '\t' || c = '\n' || c = '\r' || c = '\x0b' || c = '\x0c'

/-- `str.strip()` on a character list: drop `pyWS` from both ends. -/
def stripChars (l : List Char) : List Char :=
  ((l.dropWhile pyWS).reverse.dropWhile pyWS).reverse

/-- `str.strip()`. -/
def pyStrip (s : String) : String := String.mk (stripChars s.data)

/-- Python `s.split(sep)` for a one-character separator (structural, so it
evaluates by kernel reduction, unlike `String.splitOn`). -/
def pySplit (sep : Char) (s : String) : List String := (go s.data).map String.mk
where
  go : List Char → List (List Char)
  | [] => [[]]
  | c :: rest =>
    if c = sep then [] :: go rest
    else
      match go rest with
      | [] => [[c]]
      | l :: ls => (c :: l) :: ls

/-- `str.lower()` (ASCII, as in the corpus). -/
def pyLower (s : String) : String := String.mk (s.data.map Char.toLower)

/-- `str.upper()` (ASCII, as in the corpus). -/
def pyUpper (s : String) : String := String.mk (s.data.map Char.toUpper)

/-- `str.strip('-')`: drop hyphens from both ends. -/
def stripDashes (l : List Char) : List Char :=
  ((l.dropWhile (· = '-')).reverse.dropWhile (· = '-')).reverse

/-- `line.split(':', 1)[1]`: everything after the first colon
(call sites are guarded by a `startswith` check that guarantees a colon). -/
def afterColon (l : List Char) : List Char :=
  (l.dropWhile (· ≠ ':')).drop 1

/-- `[x.strip() for x in s.split(',')]`. -/
def splitCommaStrip (s : String) : List String :=
  (pySplit ',' s).map pyStrip

/-- Is `c` an ASCII decimal digit? -/
def isDigitChar (c : Char) : Bool := '0' ≤ c && c ≤ '9'

/-- Python `int(str)` restricted to the grammar `[+-]? digit+` that occurs in
the corpus (value is already stripped at the call site). -/
def pyToInt (s : String) : Option Int :=
  match s.data with
  | [] => none
  | '+' :: ds => if ds ≠ [] && ds.all isDigitChar then some (readNat ds 0) else none
  | '-' :: ds => if ds ≠ [] && ds.all isDigitChar then some (-(readNat ds 0 : Int)) else none
  | ds => if ds.all isDigitChar then some (readNat ds 0) else none
where
  /-- Fold a digit string into a natural number. -/
  readNat : List Char → Nat → Nat
  | [], acc => acc
  | c :: cs, acc => readNat cs (acc * 10 + (c.toNat - 48))

/-- Decimal digits of `n`, most significant first (fuel-based so it reduces). -/
def decDigits : Nat → Nat → List Nat
  | 0, _ => []
  | f + 1, n => if n < 10 then [n] else decDigits f (n / 10) ++ [n % 10]

/-- One decimal digit as a character. -/
def decChar (d : Nat) : Char := Char.ofNat (48 + d)

/-- The decimal rendering of `n`, as Python's `f"{n}"` produces it. -/
def natDec (n : Nat) : String := String.mk ((decDigits (n + 1) n).map decChar)

/-- Value of a most-significant-first digit list. -/
def ofDecDigits (ds : List Nat) : Nat := ds.foldl (fun acc d => acc * 10 + d) 0

/-- Does `needle` occur as a contiguous sublist of `hay`? (Python `in`.) -/
def containsSub (needle : List Char) : List Char → Bool
  | [] => needle.isPrefixOf []
  | c :: rest => needle.isPrefixOf (c :: rest) || containsSub needle rest

/-!
### The `PATTERN:` / `LANGUAGES:` search

`re.search(r'KEY:\s*(.+?)(?:\n|$)', s)` (no DOTALL).  Derived semantics, for
the text `t` following an occurrence of the literal `KEY:`:
with `W` the maximal whitespace prefix of `t` and `R` the rest,

* if `R ≠ []` the group is `R` up to (excluding) the first `'\n'`;
* if `R = []` (everything after the key is whitespace) the greedy `\s*`
  backtracks to the last non-newline character of `t`, which becomes the
  group (a single blank), provided one exists;
* otherwise this occurrence fails and the search resumes at the next
  occurrence of the literal.
-/

/-- Match the `\s*(.+?)(?:\n|$)` tail at one occurrence (see above). -/
def searchTail (t : List Char) : Option (List Char) :=
  let R := t.dropWhile pyWS
  if R ≠ [] then some (R.takeWhile (· ≠ '\n'))
  else
    match (t.filter (· ≠ '\n')).getLast? with
    | some c => some [c]
    | none => none

/-- `re.search(r'KEY:\s*(.+?)(?:\n|$)', s)`: leftmost occurrence of the
literal `key` whose tail matches; returns the captured group. -/
def searchKey (key : List Char) : List Char → Option (List Char)
  | [] => none
  | c :: rest =>
    if key.isPrefixOf (c :: rest) then
      match searchTail ((c :: rest).drop key.length) with
      | some g => some g
      | none => searchKey key rest
    else searchKey key rest

/-- String-level wrapper for `searchKey`. -/
def searchKeyS (key s : String) : Option String :=
  (searchKey key.data s.data).map String.mk

/-!
### `parse_security_patterns` (rag-security-to-semgrep.py)
-/

/-- The `current_meta` mutable snapshot of `parse_security_patterns`. -/
structure Meta where
  category : String
  severity : String
  confidence : Int
  cwe : List String
  owasp : List String
  description : String
deriving DecidableEq

/-- Initial metadata state. -/
def meta0 : Meta := ⟨"", "medium", 80, [], [], ""⟩

/-- One extracted detection pattern (the dicts appended to `patterns`). -/
structure PatternRecord where
  category : String
  severity : String
  confidence : Int
  cwe : List String
  owasp : List String
  description : String
  regex : String
  languages : List String
deriving DecidableEq

/-- The metadata-marker branches of the scan loop, applied to one already
stripped line (the fenced-block branch is handled by `parseLines`; its guard
`line.startswith('```')` is disjoint from every marker prefix here, so
factoring it out preserves the Python `elif` chain). -/
def updateMeta (m : Meta) (line : String) : Meta :=
  let l := line.data
  if ("CATEGORY:".data).isPrefixOf l then
    { m with category := String.mk (stripChars (afterColon l)) }
  else if ("SEVERITY:".data).isPrefixOf l then
    { m with severity := pyLower (String.mk (stripChars (afterColon l))) }
  else if ("CONFIDENCE:".data).isPrefixOf l then
    match pyToInt (String.mk (stripChars (afterColon l))) with
    | some n => { m with confidence := n }
    | none => m
  else if ("CWE:".data).isPrefixOf l then
    let cwe := String.mk (stripChars (afterColon l))
    if cwe ≠ "" && pyLower cwe ≠ "none" then
      { m with cwe := splitCommaStrip cwe }
    else m
  else if ("OWASP:".data).isPrefixOf l then
    let owasp := String.mk (stripChars (afterColon l))
    if owasp ≠ "" && pyLower owasp ≠ "none" then
      { m with owasp := splitCommaStrip owasp }
    else m
  else if ("### ".data).isPrefixOf l then
    { m with description := pyStrip (String.mk (l.drop 4)) }
  else m

/-- Does this (raw) line open or close a fence, i.e.
`lines[i].strip().startswith('```')`? -/
def lineIsFence (l : String) : Bool :=
  ("```".data).isPrefixOf (stripChars l.data)

/-- Process one closed-off fenced block body (`block_content`): emit a
`PatternRecord` iff the `PATTERN:` search succeeds. -/
def emitBlock (m : Meta) (blockLines : List String) : List PatternRecord :=
  let bc := String.intercalate "\n" blockLines
  match searchKeyS "PATTERN:" bc with
  | none => []
  | some g =>
    let languages :=
      match searchKeyS "LANGUAGES:" bc with
      | none => ["generic"]
      | some lg => splitCommaStrip lg
    [⟨m.category, m.severity, m.confidence, m.cwe, m.owasp, m.description,
      pyStrip g, languages⟩]

/-- The `while i < len(lines)` scan loop.  Fuel decreases once per iteration;
each iteration consumes at least one line, so `lines.length` fuel suffices. -/
def parseLines : Nat → Meta → List String → List PatternRecord
  | 0, _, _ => []
  | _ + 1, _, [] => []
  | f + 1, m, l :: rest =>
    let s := pyStrip l
    if lineIsFence s then
      let block := rest.takeWhile (fun x => !(lineIsFence x))
      let rest2 := (rest.dropWhile (fun x => !(lineIsFence x))).drop 1
      emitBlock m block ++ parseLines f m rest2
    else
      parseLines f (updateMeta m s) rest

/-- `parse_security_patterns(content)`. -/
def parse_security_patterns (content : String) : List PatternRecord :=
  let lines := pySplit '\n' content
  parseLines lines.length meta0 lines

/-!
### `severity_to_semgrep`, `create_rule_id`, `convert_patterns_to_rules`
-/

/-- `severity_to_semgrep(severity)`: `mapping.get(severity.lower(), 'WARNING')`. -/
def severity_to_semgrep (severity : String) : String :=
  let k := pyLower severity
  if k = "critical" then "ERROR"
  else if k = "high" then "ERROR"
  else if k = "medium" then "WARNING"
  else if k = "low" then "INFO"
  else if k = "info" then "INFO"
  else "WARNING"

/-- The severity table as the specification states it (critical→ERROR,
high→ERROR, medium→WARNING, low→INFO, info→INFO, unrecognized→WARNING,
case-insensitively); written from the spec's words for comparison. -/
def specSeverityTable (severity : String) : String :=
  let k := pyLower severity
  if k = "critical" then "ERROR"
  else if k = "high" then "ERROR"
  else if k = "medium" then "WARNING"
  else if k = "low" then "INFO"
  else if k = "info" then "INFO"
  else "WARNING"

/-- `re.sub(r'[^a-z0-9]+', '-', s)` on an already lowercased string: replace
every maximal run of characters outside `[a-z0-9]` by one hyphen.  The flag
records whether we are inside such a run. -/
def slugAux : List Char → Bool → List Char
  | [], _ => []
  | c :: rest, inRun =>
    if ('a' ≤ c && c ≤ 'z') || ('0' ≤ c && c ≤ '9') then c :: slugAux rest false
    else if inRun then slugAux rest true
    else '-' :: slugAux rest true

/-- `re.sub(r'[^a-z0-9]+', '-', s.lower())`. -/
def slugOf (s : String) : List Char := slugAux (pyLower s).data false

/-- `create_rule_id(category, description, index)`. -/
def create_rule_id (category description : String) (index : Nat) : String :=
  let descId := String.mk (stripDashes ((slugOf description).take 50))
  let descId := if descId = "" then "pattern-" ++ natDec index else descId
  "zero." ++ category ++ "." ++ descId

/-- The suffixed candidate `f"{base_id}-{counter}"`. -/
def sfx (base : String) (counter : Nat) : String := base ++ "-" ++ natDec counter

/-- The collision loop `while rule_id in seen_ids: rule_id = f"{base}-{n}"`.
Fuel-based; `seen.length + 2` attempts always reach a fresh identifier. -/
def freshIdAux (base : String) (seen : List String) : Nat → Nat → String → String
  | 0, _, cur => cur
  | f + 1, counter, cur =>
    if cur ∈ seen then freshIdAux base seen f (counter + 1) (sfx base counter)
    else cur

/-- Collision-resolved identifier: first of `base`, `base-1`, `base-2`, …
not in `seen`. -/
def freshId (base : String) (seen : List String) : String :=
  freshIdAux base seen (seen.length + 2) 1 base

/-- The `metadata` mapping of an emitted rule (optional keys as `Option`). -/
structure RuleMeta where
  category : Option String
  confidence : Option Int
  scanner : Option String
  cwe : Option (List String)
  owasp : Option (List String)
  technology : Option String
  detection_type : Option String
  secret_type : Option String
deriving DecidableEq

/-- An emitted Semgrep rule dict; the three mutually exclusive pattern keys
are modelled as separate `Option` fields, as in the Python dicts. -/
structure Rule where
  id : String
  message : String
  severity : String
  languages : List String
  metadata : RuleMeta
  pattern : Option String
  patternEither : Option (List String)
  patternRegex : Option String
deriving DecidableEq

/-- The `lang_mapping` dict of `convert_patterns_to_rules`:
`lang_mapping.get(lang.lower().strip(), 'generic')`. -/
def secLangMap (lang : String) : String :=
  let k := pyStrip (pyLower lang)
  if k = "javascript" then "javascript"
  else if k = "typescript" then "typescript"
  else if k = "python" then "python"
  else if k = "java" then "java"
  else if k = "go" then "go"
  else if k = "ruby" then "ruby"
  else if k = "generic" then "generic"
  else if k = "yaml" then "yaml"
  else if k = "json" then "json"
  else if k = "graphql" then "generic"
  else "generic"

/-- Language normalization of `convert_patterns_to_rules`: map, dedupe
preserving first occurrence, then add `typescript` after `javascript`. -/
def mapLanguages (langs : List String) : List String :=
  let mapped := langs.foldl
    (fun acc lang =>
      let m := secLangMap lang
      if m ∈ acc then acc else acc ++ [m]) []
  if "javascript" ∈ mapped && "typescript" ∉ mapped then mapped ++ ["typescript"]
  else mapped

/-- Build one rule of the security pipeline (body of the `for` loop after
identifier resolution). -/
def mkSecRule (rid : String) (p : PatternRecord) (category description baseCategory : String) :
    Rule :=
  let languages := mapLanguages p.languages
  { id := rid
    message := description
    severity := severity_to_semgrep p.severity
    languages := if languages ≠ [] then languages else ["generic"]
    metadata :=
      { category := some category
        confidence := some p.confidence
        scanner := some baseCategory
        cwe := if p.cwe ≠ [] then some p.cwe else none
        owasp := if p.owasp ≠ [] then some p.owasp else none
        technology := none
        detection_type := none
        secret_type := none }
    pattern := none
    patternEither := none
    patternRegex := some p.regex }

/-- The `for i, p in enumerate(patterns)` loop with the run-scoped seen-id
set threaded through. -/
def convertLoop (baseCategory : String) : List PatternRecord → Nat → List String → List Rule
  | [], _, _ => []
  | p :: ps, i, seen =>
    let category := if p.category ≠ "" then p.category else baseCategory
    let description := if p.description ≠ "" then p.description
                       else category ++ " security issue"
    let rid := freshId (create_rule_id category description i) seen
    mkSecRule rid p category description baseCategory ::
      convertLoop baseCategory ps (i + 1) (rid :: seen)

/-- `convert_patterns_to_rules(patterns, base_category)`. -/
def convert_patterns_to_rules (patterns : List PatternRecord) (baseCategory : String) :
    List Rule :=
  convertLoop baseCategory patterns 0 []

/-!
### `regex_to_semgrep` (rag-to-semgrep.py)

Each embedded `re` operation is deterministic for its concrete pattern:
greedy repetitions there are followed by literals no repeated class can
match, so backtracking never produces a different result (noted per case).
-/

/-- `re.match(r'\^from\s+(\S+)\s+import', pattern)`: anchored at the start;
`\S+` is maximal (shrinking it would put a non-blank under `\s+`), and
`\s+` is maximal (shrinking it would put a blank under the literal
`import`), so the match is computed without backtracking. -/
def pyFromMatch (l : List Char) : Option (List Char) :=
  if ("^from".data).isPrefixOf l then
    let t := l.drop 5
    if t.takeWhile pyWS = [] then none
    else
      let t1 := t.dropWhile pyWS
      let module := t1.takeWhile (fun c => !pyWS c)
      if module = [] then none
      else
        let t2 := t1.drop module.length
        if t2.takeWhile pyWS = [] then none
        else if ("import".data).isPrefixOf (t2.dropWhile pyWS) then some module
        else none
  else none

/-- `re.search(pre ++ "([^bad]+)" ++ post, hay)`: leftmost occurrence of the
literal `pre` followed by a nonempty maximal run of characters other than
`bad` followed by the literal `post` (the run is maximal because `post`
starts with `bad`, so no shorter capture can succeed). -/
def searchDelim (pre : List Char) (bad : Char) (post : List Char) :
    List Char → Option (List Char)
  | [] => none
  | c :: rest =>
    if pre.isPrefixOf (c :: rest) then
      let t := (c :: rest).drop pre.length
      let cap := t.takeWhile (· ≠ bad)
      if cap ≠ [] && post.isPrefixOf (t.drop cap.length) then some cap
      else searchDelim pre bad post rest
    else searchDelim pre bad post rest

/-- The tail of the Python branch of `regex_to_semgrep`: the alternation
check (`'|' in pattern → None`) followed by the trailing-`\(` call idiom. -/
def pyCallBranch (p : List Char) : Option String :=
  if containsSub ['|'] p then none
  else if ("\\(".data).isSuffixOf p then
    some (String.mk (p.dropLast.dropLast) ++ "(...)")
  else none

/-- The `new Name\(` idiom of the JavaScript branch. -/
def jsNewBranch (p : List Char) : Option String :=
  if ("new ".data).isPrefixOf p && ("\\(".data).isSuffixOf p then
    some ("new " ++ String.mk ((p.drop 4).dropLast.dropLast) ++ "(...)")
  else none

/-- The `require\(['"]...` idiom, falling through to `jsNewBranch`. -/
def jsRequireBranch (p : List Char) : Option String :=
  if containsSub ("require\\(['\"]".data) p then
    match searchDelim ("require\\(['\"]".data) '[' ("['\"]".data) p with
    | some m => some ("require(\"" ++ String.mk m ++ "\")")
    | none => jsNewBranch p
  else jsNewBranch p

/-- The JavaScript/TypeScript branch of `regex_to_semgrep`. -/
def jsBranch (p : List Char) : Option String :=
  if containsSub ("from ['\"]".data) p then
    match searchDelim ("from ['\"]".data) '[' ("['\"]".data) p with
    | some m => some ("import $X from \"" ++ String.mk m ++ "\"")
    | none => jsRequireBranch p
  else jsRequireBranch p

/-- `regex_to_semgrep(regex_pattern, language)`. -/
def regex_to_semgrep (regexPattern language : String) : Option String :=
  let p := regexPattern.data
  if language = "python" then
    if ("^import ".data).isPrefixOf p then
      some ("import " ++ String.mk (p.drop 8))
    else if ("^from ".data).isPrefixOf p && containsSub ("import".data) p then
      match pyFromMatch p with
      | some m => some ("from " ++ String.mk m ++ " import $X")
      | none => pyCallBranch p
    else pyCallBranch p
  else if language = "javascript" || language = "typescript" then
    jsBranch p
  else if language = "go" then
    if containsSub ("import".data) p then
      match searchDelim ("\"".data) '"' ("\"".data) p with
      | some pkg => some ("import \"" ++ String.mk pkg ++ "\"")
      | none => none
    else none
  else none

/-!
### `convert_technology` (rag-to-semgrep.py)
-/

/-- One `{name, pattern, severity}` secret triple. -/
structure Secret where
  name : String
  pattern : String
  severity : String
deriving DecidableEq

/-- The fields of `PatternParser.data` that `convert_technology` consumes
(`packages` and `env_vars` are parsed but never read by rule synthesis).
`imports` and `confidence` are insertion-ordered dicts, modelled as
association lists. -/
structure TechData where
  name : String
  category : String
  description : String
  imports : List (String × List String)
  secrets : List Secret
  confidence : List (String × Int)
deriving DecidableEq

/-- The `semgrep_lang` mapping `{python→python, …}.get(lang, lang)`. -/
def techLangName (lang : String) : String :=
  if lang = "python" then "python"
  else if lang = "javascript" then "javascript"
  else if lang = "go" then "go"
  else if lang = "ruby" then "ruby"
  else if lang = "java" then "java"
  else lang

/-- Collect `import_patterns`: `(language, pattern)` pairs for every
translatable regex; `if semgrep_pattern:` is Python truthiness, so empty
strings are also dropped. -/
def importPatterns (data : TechData) : List (String × String) :=
  data.imports.foldl
    (fun acc lp =>
      acc ++ lp.2.foldl
        (fun acc2 regex =>
          match regex_to_semgrep regex lp.1 with
          | some sp => if sp ≠ "" then acc2 ++ [(techLangName lp.1, sp)] else acc2
          | none => acc2) [])
    []

/-- Group `(language, pattern)` pairs into an insertion-ordered
language→patterns dict (`by_lang`). -/
def groupByLang (ps : List (String × String)) : List (String × List String) :=
  ps.foldl
    (fun acc lp =>
      if acc.any (fun kv => kv.1 = lp.1) then
        acc.map (fun kv => if kv.1 = lp.1 then (kv.1, kv.2 ++ [lp.2]) else kv)
      else acc ++ [(lp.1, [lp.2])])
    []

/-- One import-detection rule for one language group. -/
def mkImportRule (data : TechData) (baseId techId category lang : String)
    (pats : List String) : Rule :=
  { id := baseId ++ "." ++ techId ++ ".import." ++ lang
    message := data.name ++ " library import detected"
    severity := "INFO"
    languages := [lang]
    metadata :=
      { category := some category
        confidence := some ((data.confidence.lookup "import_detection").getD 90)
        scanner := none
        cwe := none
        owasp := none
        technology := some data.name
        detection_type := some "import"
        secret_type := none }
    pattern := if pats.length = 1 then some pats.headI else none
    patternEither := if pats.length = 1 then none else some pats
    patternRegex := none }

/-- The `severity_map` of the secrets loop in `convert_technology`:
`{'CRITICAL': 'ERROR', 'HIGH': 'WARNING', 'MEDIUM': 'WARNING',
'LOW': 'INFO'}.get(severity, 'WARNING')`. -/
def secretsSeverityMap (s : String) : String :=
  if s = "CRITICAL" then "ERROR"
  else if s = "HIGH" then "WARNING"
  else if s = "MEDIUM" then "WARNING"
  else if s = "LOW" then "INFO"
  else "WARNING"

/-- One secrets-detection rule. -/
def mkSecretRule (data : TechData) (baseId techId : String) (secret : Secret) : Rule :=
  { id := baseId ++ "." ++ techId ++ ".secret." ++ String.mk (slugOf secret.name)
    message := "Potential " ++ data.name ++ " " ++ secret.name ++ " exposed"
    severity := secretsSeverityMap secret.severity
    languages := ["generic"]
    metadata :=
      { category := some "secrets"
        confidence := some 95
        scanner := none
        cwe := none
        owasp := none
        technology := some data.name
        detection_type := none
        secret_type := some secret.name }
    pattern := none
    patternEither := none
    patternRegex := some secret.pattern }

/-- `convert_technology(parser, base_id)`. -/
def convert_technology (data : TechData) (baseId : String) : List Rule :=
  if data.name = "" then []
  else
    let techId := String.mk (stripDashes (slugOf data.name))
    let category := if data.category ≠ "" then data.category else "unknown"
    let importRules := (groupByLang (importPatterns data)).map
      (fun g => mkImportRule data baseId techId category g.1 g.2)
    let secretRules := data.secrets.map (fun s => mkSecretRule data baseId techId s)
    importRules ++ secretRules

/-- Does a rule dict carry exactly one of the three pattern keys? -/
def oneEmbeddedPattern (r : Rule) : Bool :=
  (r.pattern.isSome && !r.patternEither.isSome && !r.patternRegex.isSome) ||
  (!r.pattern.isSome && r.patternEither.isSome && !r.patternRegex.isSome) ||
  (!r.pattern.isSome && !r.patternEither.isSome && r.patternRegex.isSome)

/-!
### `PatternParser._parse_imports` / `_parse_secrets` (rag-to-semgrep.py)

Section extraction is `re.search(r'<heading>\s*\n(.*?)(?=<boundary>|\Z)', content,
re.DOTALL)`.  At an occurrence of the heading literal, `\s*\n` consumes the
following whitespace run up to and including its *last* newline (greedy `\s*`
backtracks just enough to leave a literal `\n`); if that run contains no
newline the occurrence fails and the search resumes.  The lazy group then
extends to the first position where the lookahead boundary (or end of text)
matches.
-/

/-- The backtick character (0x60). -/
def btick : Char := "`".data.headI

/-- Consume a whitespace run that must contain a newline, up to and including
its last newline (the `\s*\n` idiom); `none` if the run has no newline. -/
def headingTailSplit (t : List Char) : Option (List Char) :=
  let W := t.takeWhile pyWS
  let trailing := W.reverse.takeWhile (· ≠ '\n')
  if trailing.length = W.length then none
  else some (t.drop (W.length - trailing.length))

/-- Lazy `(.*?)` up to the first suffix where `isB` holds, or end of text. -/
def takeUntilBoundary (isB : List Char → Bool) : List Char → List Char
  | [] => []
  | c :: rest => if isB (c :: rest) then [] else c :: takeUntilBoundary isB rest

/-- The lookahead `\n## [^I]` of `_parse_imports`: a following `## ` heading
terminates the section only if its text does not begin with `I`. -/
def importBoundary : List Char → Bool
  | '\n' :: '#' :: '#' :: ' ' :: c :: _ => c ≠ 'I'
  | _ => false

/-- The lookahead `\n## [^S#]` of `_parse_secrets`. -/
def secretsBoundary : List Char → Bool
  | '\n' :: '#' :: '#' :: ' ' :: c :: _ => c ≠ 'S' && c ≠ '#'
  | _ => false

/-- The section boundary as the specification states it: the next heading of
equal or higher rank, i.e. any following `## ` or `# ` heading, whatever its
text; written from the spec's words for comparison. -/
def specBoundary : List Char → Bool
  | '\n' :: '#' :: '#' :: ' ' :: _ => true
  | '\n' :: '#' :: ' ' :: _ => true
  | _ => false

/-- `re.search(r'<heading>\s*\n(.*?)(?=<boundary>|\Z)', content, re.DOTALL)`. -/
def sectionBody (heading : List Char) (isB : List Char → Bool) :
    List Char → Option (List Char)
  | [] => none
  | c :: rest =>
    if heading.isPrefixOf (c :: rest) then
      match headingTailSplit ((c :: rest).drop heading.length) with
      | some t => some (takeUntilBoundary isB t)
      | none => sectionBody heading isB rest
    else sectionBody heading isB rest

/-- The Import Detection section body of one document. -/
def importSectionBody (content : String) : Option String :=
  (sectionBody ("## Import Detection".data) importBoundary content.data).map String.mk

/-- The Secrets Detection section body of one document. -/
def secretsSectionBody (content : String) : Option String :=
  (sectionBody ("## Secrets Detection".data) secretsBoundary content.data).map String.mk

/-- The section span as the specification describes it: from the target
heading (exclusive, skipping the rest of the heading line) to the next
heading of equal or higher rank, or end of document.  Modelled from the
spec's words, for comparison with the code's extraction. -/
def specSectionSpan (heading content : String) : Option String :=
  (go heading.data content.data).map String.mk
where
  go (h : List Char) : List Char → Option (List Char)
  | [] => none
  | c :: rest =>
    if h.isPrefixOf (c :: rest) then
      let t := ((c :: rest).drop h.length).dropWhile (· ≠ '\n')
      -- prepend the heading line's own newline so that a heading standing
      -- right at the start of the span also counts as the next heading
      some ((takeUntilBoundary specBoundary t).drop 1)
    else go h rest

/-- The inner `\n###|\n##` lookahead of the per-language sub-sections:
equivalent to the first following `\n##`. -/
def hashfiBoundary : List Char → Bool
  | '\n' :: '#' :: '#' :: _ => true
  | _ => false

/-- `re.search(r'<heading>.*?\n(.*?)(?=\n###|\n##|\Z)', s, re.DOTALL)`:
the lazy `.*?\n` consumes up to and including the *first* newline at or
after the heading literal. -/
def subsectionLazy (heading : List Char) : List Char → Option (List Char)
  | [] => none
  | c :: rest =>
    if heading.isPrefixOf (c :: rest) then
      match ((c :: rest).drop heading.length).dropWhile (· ≠ '\n') with
      | _ :: t => some (takeUntilBoundary hashfiBoundary t)
      | [] => subsectionLazy heading rest
    else subsectionLazy heading rest

/-- `re.search(r'### Go\s*\n(.*?)(?=\n###|\n##|\Z)', s, re.DOTALL)` — the Go
sub-section uses `\s*\n` instead of `.*?\n`. -/
def subsectionWS (heading : List Char) : List Char → Option (List Char)
  | [] => none
  | c :: rest =>
    if heading.isPrefixOf (c :: rest) then
      match headingTailSplit ((c :: rest).drop heading.length) with
      | some t => some (takeUntilBoundary hashfiBoundary t)
      | none => subsectionWS heading rest
    else subsectionWS heading rest

/-- `re.findall(r'\*\*Pattern\*\*:\s*`([^`]+)`', s)`: every non-overlapping
backtick-quoted pattern value, scanning left to right (after `\s*` the
literal backtick must follow — a shorter whitespace match cannot succeed). -/
def findTickPatterns : Nat → List Char → List (List Char)
  | 0, _ => []
  | _ + 1, [] => []
  | f + 1, c :: rest =>
    let pre := "**Pattern**:".data
    if pre.isPrefixOf (c :: rest) then
      match ((c :: rest).drop pre.length).dropWhile pyWS with
      | b :: t2 =>
        if b = btick then
          let cap := t2.takeWhile (· ≠ btick)
          if cap ≠ [] && (t2.drop cap.length).head? = some btick then
            cap :: findTickPatterns f ((t2.drop cap.length).drop 1)
          else findTickPatterns f rest
        else findTickPatterns f rest
      | [] => findTickPatterns f rest
    else findTickPatterns f rest

/-- `data['imports']` after `_parse_imports`: the five-language dict, with
the Python/Javascript/Go sub-sections filled from the Import Detection
section when present. -/
def parseImportsDict (content : String) : List (String × List String) :=
  match sectionBody ("## Import Detection".data) importBoundary content.data with
  | none => [("python", []), ("javascript", []), ("go", []), ("ruby", []), ("java", [])]
  | some sec =>
    let pats : Option (List Char) → List String := fun b =>
      match b with
      | some body => (findTickPatterns body.length body).map String.mk
      | none => []
    [("python", pats (subsectionLazy ("### Python".data) sec)),
     ("javascript", pats (subsectionLazy ("### Javascript".data) sec)),
     ("go", pats (subsectionWS ("### Go".data) sec)),
     ("ruby", []), ("java", [])]

/-- Is `c` a `\w` word character (ASCII)? -/
def isWordChar (c : Char) : Bool :=
  ('a' ≤ c && c ≤ 'z') || ('A' ≤ c && c ≤ 'Z') || ('0' ≤ c && c ≤ '9') || c = '_'

/-- First `\*\*Pattern\*\*:\s*`([^`]+)`` unit at or after the start of `s`;
returns the capture and the text after the closing backtick. -/
def findPatUnit : List Char → Option (List Char × List Char)
  | [] => none
  | c :: rest =>
    let pre := "**Pattern**:".data
    if pre.isPrefixOf (c :: rest) then
      match ((c :: rest).drop pre.length).dropWhile pyWS with
      | b :: t2 =>
        if b = btick then
          let cap := t2.takeWhile (· ≠ btick)
          if cap ≠ [] && (t2.drop cap.length).head? = some btick then
            some (cap, (t2.drop cap.length).drop 1)
          else findPatUnit rest
        else findPatUnit rest
      | [] => findPatUnit rest
    else findPatUnit rest

/-- First `\*\*Severity\*\*:\s*(\w+)` unit at or after the start of `s`;
returns the capture and the text after it. -/
def findSevUnit : List Char → Option (List Char × List Char)
  | [] => none
  | c :: rest =>
    let pre := "**Severity**:".data
    if pre.isPrefixOf (c :: rest) then
      let t := ((c :: rest).drop pre.length).dropWhile pyWS
      let w := t.takeWhile isWordChar
      if w ≠ [] then some (w, t.drop w.length) else findSevUnit rest
    else findSevUnit rest

/-- `re.findall(r'####\s*(.+?)\n.*?\*\*Pattern\*\*:\s*`([^`]+)`.*?\*\*Severity\*\*:\s*(\w+)',
section, re.DOTALL)`.  With DOTALL the two lazy `.*?` gaps extend across any
text — including subsequent `####` headings — to the *first* following
pattern unit and then the *first* following severity unit; when either is
missing the whole attempt at this `####` fails (a later choice of the lazy
groups only shrinks the remaining search space, so backtracking cannot
rescue it) and scanning resumes one character further on.  Each successful
match resumes after the matched severity word. -/
def findTriples : Nat → List Char → List (List Char × List Char × List Char)
  | 0, _ => []
  | _ + 1, [] => []
  | f + 1, c :: rest =>
    if ("####".data).isPrefixOf (c :: rest) then
      let t := (c :: rest).drop 4
      let u := t.dropWhile pyWS
      let name := u.takeWhile (· ≠ '\n')
      match u.drop name.length with
      | '\n' :: afterName =>
        (match findPatUnit afterName with
         | some (cap, r1) =>
           match findSevUnit r1 with
           | some (sev, r2) => (name, cap, sev) :: findTriples f r2
           | none => findTriples f rest
         | none => findTriples f rest)
      | _ => findTriples f rest
    else findTriples f rest

/-- `data['secrets']` after `_parse_secrets`: name and pattern stripped,
severity stripped and uppercased. -/
def parse_secrets (content : String) : List Secret :=
  match sectionBody ("## Secrets Detection".data) secretsBoundary content.data with
  | none => []
  | some sec =>
    (findTriples sec.length sec).map fun tr =>
      ⟨pyStrip (String.mk tr.1), pyStrip (String.mk tr.2.1),
       pyUpper (pyStrip (String.mk tr.2.2))⟩

/-- The candidate identifiers `freshIdAux` examines, in order (mirrors its
recursion; used to reason about the collision loop). -/
def candsOf (base : String) : Nat → Nat → String → List String
  | 0, _, _ => []
  | f + 1, counter, cur => cur :: candsOf base f (counter + 1) (sfx base counter)

/-!
## Helper lemmas
-/

theorem decDigits_lt_ten : ∀ (f n d : Nat), d ∈ decDigits f n → d < 10 := by
  intro f
  induction f with
  | zero => intro n d h; simp [decDigits] at h
  | succ f ih =>
    intro n d h
    by_cases hn : n < 10
    · simp [decDigits, hn] at h; omega
    · simp [decDigits, hn] at h
      rcases h with h | h
      · exact ih _ _ h
      · omega

theorem ofDecDigits_append (ds : List Nat) (d : Nat) :
    ofDecDigits (ds ++ [d]) = 10 * ofDecDigits ds + d := by
  simp [ofDecDigits, List.foldl_append]
  omega

theorem decDigits_val : ∀ (f n : Nat), n ≤ f → ofDecDigits (decDigits f n) = n := by
  intro f
  induction f with
  | zero =>
    intro n h
    have : n = 0 := Nat.le_zero.mp h
    subst this
    rfl
  | succ f ih =>
    intro n h
    by_cases hn : n < 10
    · simp [decDigits, hn, ofDecDigits]
    · have heq : decDigits (f + 1) n = decDigits f (n / 10) ++ [n % 10] := by
        simp [decDigits, hn]
      rw [heq, ofDecDigits_append, ih (n / 10) (by omega)]
      omega

theorem decChar_inj : ∀ d1, d1 < 10 → ∀ d2, d2 < 10 → decChar d1 = decChar d2 → d1 = d2 := by
  decide

theorem map_decChar_inj : ∀ (l1 l2 : List Nat), (∀ d ∈ l1, d < 10) → (∀ d ∈ l2, d < 10) →
    l1.map decChar = l2.map decChar → l1 = l2 := by
  intro l1
  induction l1 with
  | nil => intro l2 _ _ h; cases l2 <;> simp_all
  | cons a l ih =>
    intro l2 h1 h2 h
    cases l2 with
    | nil => simp at h
    | cons b l2' =>
      simp only [List.map_cons, List.cons.injEq] at h
      have ha := decChar_inj a (h1 a (by simp)) b (h2 b (by simp)) h.1
      subst ha
      rw [ih l2' (fun d hd => h1 d (by simp [hd])) (fun d hd => h2 d (by simp [hd])) h.2]

theorem natDec_inj (m n : Nat) (h : natDec m = natDec n) : m = n := by
  have hd : (decDigits (m + 1) m).map decChar = (decDigits (n + 1) n).map decChar :=
    congrArg String.data h
  have hds := map_decChar_inj _ _ (fun d hd => decDigits_lt_ten _ _ _ hd)
    (fun d hd => decDigits_lt_ten _ _ _ hd) hd
  calc m = ofDecDigits (decDigits (m + 1) m) := (decDigits_val _ _ (by omega)).symm
    _ = ofDecDigits (decDigits (n + 1) n) := by rw [hds]
    _ = n := decDigits_val _ _ (by omega)

theorem sfx_inj (base : String) (j k : Nat) (h : sfx base j = sfx base k) : j = k := by
  have h2 := congrArg String.data h
  simp only [sfx, String.data_append, List.append_assoc] at h2
  have h3 := List.append_cancel_left h2
  have h4 := List.append_cancel_left h3
  exact natDec_inj _ _ (String.ext h4)

theorem natDec_ne_nil (n : Nat) : (natDec n).data ≠ [] := by
  by_cases hn : n < 10 <;> simp [natDec, decDigits, hn]

theorem base_ne_sfx (base : String) (k : Nat) : base ≠ sfx base k := by
  intro h
  have hlen := congrArg (fun s : String => s.data.length) h
  simp only [sfx, String.data_append, List.length_append] at hlen
  have h0 : (natDec k).data.length ≠ 0 := fun hz =>
    natDec_ne_nil k (List.length_eq_zero.mp hz)
  have h1 : ("-" : String).data.length = 1 := rfl
  omega

theorem freshIdAux_not_mem (base : String) (seen : List String) :
    ∀ (fuel counter : Nat) (cur : String),
      (∃ c ∈ candsOf base fuel counter cur, c ∉ seen) →
      freshIdAux base seen fuel counter cur ∉ seen := by
  intro fuel
  induction fuel with
  | zero => intro counter cur h; simp [candsOf] at h
  | succ f ih =>
    intro counter cur h
    by_cases hcur : cur ∈ seen
    · rw [freshIdAux, if_pos hcur]
      apply ih
      rcases h with ⟨c, hc, hns⟩
      rw [candsOf, List.mem_cons] at hc
      rcases hc with rfl | hc
      · exact absurd hcur hns
      · exact ⟨c, hc, hns⟩
    · rw [freshIdAux, if_neg hcur]
      exact hcur

theorem candsOf_length (base : String) :
    ∀ (fuel counter : Nat) (cur : String), (candsOf base fuel counter cur).length = fuel := by
  intro fuel
  induction fuel with
  | zero => intro counter cur; rfl
  | succ f ih => intro counter cur; simp [candsOf, ih]

theorem mem_candsOf (base : String) :
    ∀ (fuel counter : Nat) (cur c : String), c ∈ candsOf base fuel counter cur →
      c = cur ∨ ∃ j, counter ≤ j ∧ c = sfx base j := by
  intro fuel
  induction fuel with
  | zero => intro counter cur c h; simp [candsOf] at h
  | succ f ih =>
    intro counter cur c h
    rw [candsOf, List.mem_cons] at h
    rcases h with rfl | h
    · exact Or.inl rfl
    · rcases ih _ _ _ h with rfl | ⟨j, hj, rfl⟩
      · exact Or.inr ⟨counter, le_refl _, rfl⟩
      · exact Or.inr ⟨j, by omega, rfl⟩

theorem candsOf_nodup (base : String) :
    ∀ (fuel counter : Nat) (cur : String), (∀ j, counter ≤ j → cur ≠ sfx base j) →
      (candsOf base fuel counter cur).Nodup := by
  intro fuel
  induction fuel with
  | zero => intro counter cur _; simp [candsOf]
  | succ f ih =>
    intro counter cur hcur
    rw [candsOf, List.nodup_cons]
    constructor
    · intro hmem
      rcases mem_candsOf base _ _ _ _ hmem with heq | ⟨j, hj, heq⟩
      · exact absurd (congrArg String.data heq) (by
          have := base_ne_sfx base counter
          exact fun hd => hcur counter (le_refl _) (String.ext hd))
      · exact hcur j (by omega) heq
    · apply ih
      intro j hj heq
      have := sfx_inj base counter j heq
      omega

theorem exists_not_mem_of_long (cands seen : List String)
    (hnd : cands.Nodup) (hlen : seen.length < cands.length) :
    ∃ c ∈ cands, c ∉ seen := by
  by_contra hall
  push_neg at hall
  have hsub : cands ⊆ seen := fun c hc => hall c hc
  have := (List.subperm_of_subset hnd hsub).length_le
  omega

theorem freshId_not_mem (base : String) (seen : List String) : freshId base seen ∉ seen := by
  apply freshIdAux_not_mem
  apply exists_not_mem_of_long
  · exact candsOf_nodup base _ _ _ (fun j _ => base_ne_sfx base j)
  · rw [candsOf_length]
    omega

theorem convertLoop_fresh (baseCat : String) :
    ∀ (ps : List PatternRecord) (i : Nat) (seen : List String),
      ((convertLoop baseCat ps i seen).map Rule.id).Nodup ∧
      ∀ r ∈ convertLoop baseCat ps i seen, r.id ∉ seen := by
  intro ps
  induction ps with
  | nil => intro i seen; exact ⟨List.nodup_nil, by simp [convertLoop]⟩
  | cons p ps ih =>
    intro i seen
    simp only [convertLoop]
    constructor
    · rw [List.map_cons, List.nodup_cons]
      constructor
      · intro hmem
        rcases List.mem_map.mp hmem with ⟨r, hr, hid⟩
        have := (ih (i + 1) _).2 r hr
        rw [hid] at this
        exact this (List.mem_cons_self _ _)
      · exact (ih (i + 1) _).1
    · intro r hr
      rcases List.mem_cons.mp hr with rfl | hr
      · exact freshId_not_mem _ seen
      · have := (ih (i + 1) _).2 r hr
        exact fun hs => this (List.mem_cons_of_mem _ hs)

theorem convertLoop_patternFields (baseCat : String) :
    ∀ (ps : List PatternRecord) (i : Nat) (seen : List String),
      (convertLoop baseCat ps i seen).map Rule.patternRegex =
        ps.map (fun p => some p.regex) ∧
      (convertLoop baseCat ps i seen).map Rule.pattern = ps.map (fun _ => none) ∧
      (convertLoop baseCat ps i seen).map Rule.patternEither = ps.map (fun _ => none) := by
  intro ps
  induction ps with
  | nil => intro i seen; exact ⟨rfl, rfl, rfl⟩
  | cons p ps ih =>
    intro i seen
    simp only [convertLoop, List.map_cons, mkSecRule]
    exact ⟨by rw [(ih (i + 1) _).1], by rw [(ih (i + 1) _).2.1], by rw [(ih (i + 1) _).2.2]⟩

theorem convert_technology_onePattern (d : TechData) (b : String) :
    (convert_technology d b).all oneEmbeddedPattern = true := by
  rw [convert_technology]
  split
  · rfl
  · rw [List.all_append, Bool.and_eq_true]
    refine ⟨?_, ?_⟩
    · rw [List.all_eq_true]
      intro r hr
      rcases List.mem_map.mp hr with ⟨g, _, rfl⟩
      by_cases hlen : g.2.length = 1 <;>
        simp [mkImportRule, oneEmbeddedPattern, hlen]
    · rw [List.all_eq_true]
      intro r hr
      rcases List.mem_map.mp hr with ⟨s, _, rfl⟩
      simp [mkSecretRule, oneEmbeddedPattern]

theorem parseLines_nil (f : Nat) (m : Meta) : parseLines f m [] = [] := by
  cases f <;> rfl

/-!
## Claim theorems
-/

/-- C10: a fence opened with ``` and never closed consumes every remaining
line as the block's body — the scan loop still terminates normally and the
block is processed exactly as a closed one: a record is emitted whenever the
`PATTERN:` search succeeds on the joined remainder. -/
theorem c10_unterminated_fence (f : Nat) (m : Meta) (fence : String)
    (body : List String)
    (hfence : lineIsFence (pyStrip fence) = true)
    (hbody : ∀ l ∈ body, lineIsFence l = false) :
    parseLines (f + 1) m (fence :: body) = emitBlock m body ∧
    ((searchKeyS "PATTERN:" (String.intercalate "\n" body)).isSome →
      parseLines (f + 1) m (fence :: body) ≠ []) := by
  have htake : body.takeWhile (fun x => !(lineIsFence x)) = body :=
    List.takeWhile_eq_self_iff.mpr (fun x hx => by simp [hbody x hx])
  have hdrop : body.dropWhile (fun x => !(lineIsFence x)) = [] :=
    List.dropWhile_eq_nil_iff.mpr (fun x hx => by simp [hbody x hx])
  have h1 : parseLines (f + 1) m (fence :: body) = emitBlock m body := by
    rw [parseLines, if_pos hfence, htake, hdrop]
    simp [parseLines_nil]
  refine ⟨h1, fun hsome => ?_⟩
  rw [h1]
  rcases Option.isSome_iff_exists.mp hsome with ⟨g, hg⟩
  simp [emitBlock, hg]

/-- C10 witness: a document whose fence is never closed still yields the
block's record. -/
theorem c10_unterminated_fence_witness :
    parse_security_patterns "```\nPATTERN: abc" =
      [⟨"", "medium", 80, [], [], "", "abc", ["generic"]⟩] := by
  have h := c10_unterminated_fence 1 meta0 "```" ["PATTERN: abc"]
    (by decide) (by decide)
  calc parse_security_patterns "```\nPATTERN: abc"
      = parseLines 2 meta0 ["```", "PATTERN: abc"] := rfl
    _ = emitBlock meta0 ["PATTERN: abc"] := h.1
    _ = [⟨"", "medium", 80, [], [], "", "abc", ["generic"]⟩] := by decide

theorem convertLoop_onePattern (baseCat : String) :
    ∀ (ps : List PatternRecord) (i : Nat) (seen : List String),
      (convertLoop baseCat ps i seen).all oneEmbeddedPattern = true := by
  intro ps
  induction ps with
  | nil => intro i seen; rfl
  | cons p ps ih =>
    intro i seen
    simp only [convertLoop, List.all_cons, Bool.and_eq_true]
    exact ⟨by simp [mkSecRule, oneEmbeddedPattern], ih (i + 1) _⟩

theorem tech_secret_severity (d : TechData) (b : String) (sec : Secret)
    (hsec : sec ∈ d.secrets) (hname : ¬ d.name = "") :
    ∃ r ∈ convert_technology d b, r.severity = secretsSeverityMap sec.severity := by
  refine ⟨mkSecretRule d b (String.mk (stripDashes (slugOf d.name))) sec, ?_, rfl⟩
  rw [convert_technology, if_neg hname]
  exact List.mem_append_right _ (List.mem_map.mpr ⟨sec, hsec, rfl⟩)

/-- C1: the severity table holds as stated for the security-pattern pipeline
(`severity_to_semgrep`, case-insensitively with WARNING default), but the
secrets rules produced from technology descriptors use a different inline
map: CRITICAL→ERROR, HIGH→WARNING, MEDIUM→WARNING, LOW→INFO, and everything
else — including INFO — defaults to WARNING; that map is the one applied to
every synthesized secret rule. -/
theorem c1_severity_table_amended :
    (∀ s, severity_to_semgrep s = specSeverityTable s) ∧
    secretsSeverityMap "CRITICAL" = "ERROR" ∧
    secretsSeverityMap "HIGH" = "WARNING" ∧
    secretsSeverityMap "MEDIUM" = "WARNING" ∧
    secretsSeverityMap "LOW" = "INFO" ∧
    secretsSeverityMap "INFO" = "WARNING" ∧
    (∀ (d : TechData) (b : String) (sec : Secret), sec ∈ d.secrets → ¬ d.name = "" →
      ∃ r ∈ convert_technology d b, r.severity = secretsSeverityMap sec.severity) :=
  ⟨fun _ => rfl, rfl, rfl, rfl, rfl, rfl,
   fun d b sec hs hn => tech_secret_severity d b sec hs hn⟩

/-- C1 witness. -/
theorem c1_severity_table_amended_witness :
    severity_to_semgrep "Critical" = specSeverityTable "Critical" ∧
    ∃ r ∈ convert_technology
        ⟨"Acme", "ai", "",
         [("python", []), ("javascript", []), ("go", []), ("ruby", []), ("java", [])],
         [⟨"Token", "T-1", "HIGH"⟩], []⟩ "g",
      r.severity = secretsSeverityMap "HIGH" :=
  ⟨c1_severity_table_amended.1 "Critical",
   c1_severity_table_amended.2.2.2.2.2.2
     ⟨"Acme", "ai", "",
      [("python", []), ("javascript", []), ("go", []), ("ruby", []), ("java", [])],
      [⟨"Token", "T-1", "HIGH"⟩], []⟩ "g" ⟨"Token", "T-1", "HIGH"⟩
     (by decide) (by decide)⟩

/-- C1 counterexample: a technology-descriptor secret with severity `HIGH`
yields a rule with severity WARNING, while the claimed table maps high to
ERROR. -/
theorem c1_severity_table_cex :
    (convert_technology
        ⟨"Acme", "ai", "",
         [("python", []), ("javascript", []), ("go", []), ("ruby", []), ("java", [])],
         [⟨"Token", "T-1", "HIGH"⟩], []⟩ "g").map Rule.severity = ["WARNING"] ∧
    specSeverityTable "HIGH" = "ERROR" ∧ ("WARNING" : String) ≠ "ERROR" :=
  ⟨by decide, by decide, by decide⟩

/-- C2: identifier uniqueness is enforced (seen-id set with `-1`, `-2`, …
suffixing) in the security-pattern pipeline — its emitted identifiers are
pairwise distinct for every input — but not in the technology pipeline,
whose identifiers are derived from names alone. -/
theorem c2_unique_ids_amended (ps : List PatternRecord) (baseCat : String) :
    ((convert_patterns_to_rules ps baseCat).map Rule.id).Nodup :=
  (convertLoop_fresh baseCat ps 0 []).1

/-- C2 counterexample: two secrets with the same name in one technology
descriptor produce two rules with the same identifier — `convert_technology`
performs no collision resolution. -/
theorem c2_unique_ids_cex :
    (convert_technology
        ⟨"Acme", "ai", "",
         [("python", []), ("javascript", []), ("go", []), ("ruby", []), ("java", [])],
         parse_secrets
           "## Secrets Detection\n#### API Key\n**Pattern**: `AK1`\n**Severity**: high\n#### API Key\n**Pattern**: `AK2`\n**Severity**: low\n",
         []⟩ "g").map Rule.id =
      ["g.acme.secret.api-key", "g.acme.secret.api-key"] ∧
    ¬ (["g.acme.secret.api-key", "g.acme.secret.api-key"] : List String).Nodup :=
  ⟨by decide, by decide⟩

/-- C3: every emitted rule carries exactly one pattern field, and the
security pipeline emits every extracted regex unchanged as `pattern-regex`;
but in the technology-import pipeline an unconvertible regex is silently
dropped — no rule is emitted for it at all. -/
theorem c3_fallback_amended :
    (∀ (ps : List PatternRecord) (b : String),
      (convert_patterns_to_rules ps b).map Rule.patternRegex =
        ps.map (fun p => some p.regex)) ∧
    (∀ (ps : List PatternRecord) (b : String),
      (convert_patterns_to_rules ps b).all oneEmbeddedPattern = true) ∧
    (∀ (d : TechData) (b : String),
      (convert_technology d b).all oneEmbeddedPattern = true) :=
  ⟨fun ps b => (convertLoop_patternFields b ps 0 []).1,
   fun ps b => convertLoop_onePattern b ps 0 [],
   convert_technology_onePattern⟩

/-- C3 counterexample: the translator returns unconvertible for `foo|bar`
(Python), and the technology pipeline then emits no rule for it — there is
no `pattern-regex` fallback in that caller. -/
theorem c3_fallback_cex :
    regex_to_semgrep "foo|bar" "python" = none ∧
    convert_technology
        ⟨"Acme", "ai", "",
         [("python", ["foo|bar"]), ("javascript", []), ("go", []), ("ruby", []), ("java", [])],
         [], []⟩ "g" = [] :=
  ⟨by decide, by decide⟩

/-- C4: a regex containing `|` is unconvertible for Python only when the
`^import ` and `^from … import` idioms — which are checked first and
translate the regex, alternation and all — do not apply. -/
theorem c4_alternation_amended (p : String)
    (h1 : containsSub ['|'] p.data = true)
    (h2 : ("^import ".data).isPrefixOf p.data = false)
    (h3 : pyFromMatch p.data = none) :
    regex_to_semgrep p "python" = none := by
  simp only [regex_to_semgrep, if_pos rfl, h2, Bool.false_eq_true, if_false, h3]
  by_cases hc : (("^from ".data).isPrefixOf p.data && containsSub ("import".data) p.data) = true
  · simp [hc, pyCallBranch, h1]
  · simp only [Bool.not_eq_true] at hc
    simp [hc, pyCallBranch, h1]

/-- C4 witness. -/
theorem c4_alternation_amended_witness :
    regex_to_semgrep "a|b" "python" = none :=
  c4_alternation_amended "a|b" (by decide) (by decide) (by decide)

/-- C4 counterexample: `^import a|b` contains the alternation operator yet
the Python translator converts it (the `^import` branch fires first), so
the translation is not `None`. -/
theorem c4_alternation_cex :
    regex_to_semgrep "^import a|b" "python" = some "import a|b" ∧
    (some "import a|b" : Option String) ≠ none :=
  ⟨by decide, by decide⟩

/-- C5: a `CWE:`/`OWASP:` line whose value is the literal `none` (any case)
is ignored — no "none" entry is added, and the list keeps its previous
value rather than being cleared. -/
theorem c5_none_clears_amended :
    (∀ (m : Meta) (v : String), pyLower (pyStrip v) = "none" →
      updateMeta m ("CWE:" ++ v) = m) ∧
    (∀ (m : Meta) (v : String), pyLower (pyStrip v) = "none" →
      updateMeta m ("OWASP:" ++ v) = m) := by
  constructor
  · intro m v h
    simp only [pyStrip] at h
    have ea : afterColon ('C' :: 'W' :: 'E' :: ':' :: v.data) = v.data := rfl
    simp [updateMeta, ea, h]
  · intro m v h
    simp only [pyStrip] at h
    have ea : afterColon ('O' :: 'W' :: 'A' :: 'S' :: 'P' :: ':' :: v.data) = v.data := rfl
    simp [updateMeta, ea, h]

/-- C5 witness. -/
theorem c5_none_clears_amended_witness :
    updateMeta ⟨"c", "high", 5, ["CWE-1"], ["A1"], "d"⟩ "CWE: None" =
      ⟨"c", "high", 5, ["CWE-1"], ["A1"], "d"⟩ ∧
    updateMeta ⟨"c", "high", 5, ["CWE-1"], ["A1"], "d"⟩ "OWASP: nOnE" =
      ⟨"c", "high", 5, ["CWE-1"], ["A1"], "d"⟩ :=
  ⟨c5_none_clears_amended.1 ⟨"c", "high", 5, ["CWE-1"], ["A1"], "d"⟩ " None" (by decide),
   c5_none_clears_amended.2 ⟨"c", "high", 5, ["CWE-1"], ["A1"], "d"⟩ " nOnE" (by decide)⟩

/-- C5 counterexample: after `CWE: CWE-89` then `CWE: none`, a following
pattern block carries `cwe = ["CWE-89"]` — the `none` line left the previous
value in place instead of clearing the list. -/
theorem c5_none_clears_cex :
    (parse_security_patterns "CWE: CWE-89\nCWE: none\n```\nPATTERN: x\n```").map
      PatternRecord.cwe = [["CWE-89"]] ∧
    (["CWE-89"] : List String) ≠ [] :=
  ⟨by decide, by decide⟩

/-- C6: the example block yields one rule with `languages [python]`,
severity INFO and category ai-library — but its pattern is carried as
`pattern-regex` with the raw text `^import openai`; the security pipeline
never produces native patterns. -/
theorem c6_example_block_amended :
    (convert_patterns_to_rules (parse_security_patterns
        "CATEGORY: ai-library\nSEVERITY: info\n```\nPATTERN: ^import openai\nLANGUAGES: python\n```")
        "api-security").map Rule.id = ["zero.ai-library.ai-library-security-issue"] ∧
    (convert_patterns_to_rules (parse_security_patterns
        "CATEGORY: ai-library\nSEVERITY: info\n```\nPATTERN: ^import openai\nLANGUAGES: python\n```")
        "api-security").map Rule.severity = ["INFO"] ∧
    (convert_patterns_to_rules (parse_security_patterns
        "CATEGORY: ai-library\nSEVERITY: info\n```\nPATTERN: ^import openai\nLANGUAGES: python\n```")
        "api-security").map Rule.languages = [["python"]] ∧
    (convert_patterns_to_rules (parse_security_patterns
        "CATEGORY: ai-library\nSEVERITY: info\n```\nPATTERN: ^import openai\nLANGUAGES: python\n```")
        "api-security").map (fun r => r.metadata.category) = [some "ai-library"] ∧
    (convert_patterns_to_rules (parse_security_patterns
        "CATEGORY: ai-library\nSEVERITY: info\n```\nPATTERN: ^import openai\nLANGUAGES: python\n```")
        "api-security").map Rule.patternRegex = [some "^import openai"] ∧
    (convert_patterns_to_rules (parse_security_patterns
        "CATEGORY: ai-library\nSEVERITY: info\n```\nPATTERN: ^import openai\nLANGUAGES: python\n```")
        "api-security").map Rule.pattern = [none] :=
  ⟨by decide, by decide, by decide, by decide, by decide, by decide⟩

/-- C6 counterexample: the rule produced for the example block has no
native `pattern` field (it is `none`); the regex rides in `pattern-regex`
unchanged, so the claimed `pattern: "import openai"` is wrong. -/
theorem c6_example_block_cex :
    (convert_patterns_to_rules (parse_security_patterns
        "CATEGORY: ai-library\nSEVERITY: info\n```\nPATTERN: ^import openai\nLANGUAGES: python\n```")
        "api-security").map Rule.pattern = [none] ∧
    (convert_patterns_to_rules (parse_security_patterns
        "CATEGORY: ai-library\nSEVERITY: info\n```\nPATTERN: ^import openai\nLANGUAGES: python\n```")
        "api-security").map Rule.patternRegex = [some "^import openai"] ∧
    (none : Option String) ≠ some "import openai" :=
  ⟨by decide, by decide, by decide⟩

/-- C7: a fenced block on whose body the `PATTERN:` search fails produces no
record; but the regex of an emitted record can be empty — a `PATTERN:` line
whose value is only blanks matches with a whitespace group that strips to
the empty string, so the non-emptiness invariant does not hold. -/
theorem c7_nonempty_regex_amended :
    (∀ (m : Meta) (bl : List String),
      searchKeyS "PATTERN:" (String.intercalate "\n" bl) = none →
        emitBlock m bl = []) ∧
    (parse_security_patterns "```\nPATTERN: \n```").map PatternRecord.regex = [""] := by
  constructor
  · intro m bl h
    simp [emitBlock, h]
  · decide

/-- C7 witness. -/
theorem c7_nonempty_regex_amended_witness :
    emitBlock meta0 ["no marker here"] = [] :=
  c7_nonempty_regex_amended.1 meta0 ["no marker here"] (by decide)

/-- C7 counterexample: the block` PATTERN: `(trailing blank, nothing else)
yields a `PatternRecord` whose regex is the empty string — not no record. -/
theorem c7_nonempty_regex_cex :
    (parse_security_patterns "```\nPATTERN: \n```").map PatternRecord.regex = [""] ∧
    ((parse_security_patterns "```\nPATTERN: \n```").length = 1) :=
  ⟨by decide, by decide⟩

/-- C8: the extracted section runs from the heading to the first following
`## ` heading whose text does not begin with the excluded letter (`I` for
Import Detection, `S` or `#` for Secrets Detection) — not to the next
heading of equal or higher rank: a following `## Integrations` or a
top-level `# Title` heading does not terminate the Import Detection
section, and a `## Settings` heading does not terminate the Secrets
Detection section, while `## Usage` terminates both. -/
theorem c8_section_span_amended :
    importSectionBody
        "# Tech\n## Import Detection\n## Integrations\n### Python\n**Pattern**: `^import bar`\n## Usage\nx" =
      some "## Integrations\n### Python\n**Pattern**: `^import bar`" ∧
    (parseImportsDict
        "## Import Detection\n### Python\n**Pattern**: `^import foo`\n# Title\n**Pattern**: `^import baz`").lookup
        "python" = some ["^import foo", "^import baz"] ∧
    importSectionBody
        "## Import Detection\n### Python\n**Pattern**: `^import foo`\n## Usage\nx" =
      some "### Python\n**Pattern**: `^import foo`" ∧
    secretsSectionBody
        "## Secrets Detection\n#### AWS Key\n**Pattern**: `AKIA0000`\n**Severity**: critical\n## Settings\n#### Extra\n**Pattern**: `E1`\n**Severity**: low\n## Usage\nx" =
      some "#### AWS Key\n**Pattern**: `AKIA0000`\n**Severity**: critical\n## Settings\n#### Extra\n**Pattern**: `E1`\n**Severity**: low" :=
  ⟨by decide, by decide, by decide, by decide⟩

/-- C8 counterexample: with a `## Integrations` heading directly after
`## Import Detection`, the code's extracted body differs from the span the
claim describes (which ends at the next `##` heading, i.e. immediately):
the code's section swallows the `## Integrations` heading and everything
under it. -/
theorem c8_section_span_cex :
    importSectionBody
        "# Tech\n## Import Detection\n## Integrations\n### Python\n**Pattern**: `^import bar`\n## Usage\nx" =
      some "## Integrations\n### Python\n**Pattern**: `^import bar`" ∧
    specSectionSpan "## Import Detection"
        "# Tech\n## Import Detection\n## Integrations\n### Python\n**Pattern**: `^import bar`\n## Usage\nx" =
      some "" ∧
    importSectionBody
        "# Tech\n## Import Detection\n## Integrations\n### Python\n**Pattern**: `^import bar`\n## Usage\nx" ≠
      specSectionSpan "## Import Detection"
        "# Tech\n## Import Detection\n## Integrations\n### Python\n**Pattern**: `^import bar`\n## Usage\nx" :=
  ⟨by decide, by decide, by decide⟩

/-- C9: a malformed `####` sub-block at the end of the section contributes
nothing and leaves earlier well-formed blocks intact; but a malformed
sub-block followed by a well-formed one absorbs the following block's
pattern and severity under the malformed block's name, and the well-formed
block then contributes no triple of its own. -/
theorem c9_secrets_skip_amended :
    parse_secrets
        "## Secrets Detection\n#### Good\n**Pattern**: `abc`\n**Severity**: high\n#### Broken\nno fields\n" =
      [⟨"Good", "abc", "HIGH"⟩] ∧
    parse_secrets
        "## Secrets Detection\n#### Broken\nno fields here\n#### Good\n**Pattern**: `abc`\n**Severity**: high\n" =
      [⟨"Broken", "abc", "HIGH"⟩] :=
  ⟨by decide, by decide⟩

/-- C9 counterexample: with `#### Broken` (no pattern/severity) followed by
`#### Good` (well-formed), the parser yields the single triple
`(Broken, abc, HIGH)` — the malformed block is not skipped, and `Good` is
not parsed with its own name. -/
theorem c9_secrets_skip_cex :
    parse_secrets
        "## Secrets Detection\n#### Broken\nno fields here\n#### Good\n**Pattern**: `abc`\n**Severity**: high\n" =
      [⟨"Broken", "abc", "HIGH"⟩] ∧
    ([⟨"Broken", "abc", "HIGH"⟩] : List Secret) ≠ [⟨"Good", "abc", "HIGH"⟩] :=
  ⟨by decide, by decide⟩
